import Mathlib

/-!
Verification of the hex-color / size parsing and main-loop logic of the
`many-color` utility. The Go source ships in two variants in one file:
variant 1 uses an anchored size regex (`^([1-9][0-9]*)x([1-9][0-9]*)$`),
keeps a running count of generated images and checks the PNG-encode error;
variant 2 uses the same pattern unanchored. Both variants share the same
hex-color parser `parseHex` and open the output PNG with
`os.O_WRONLY|os.O_CREATE`.

Strings are modelled as `List Char`; Go errors as `Option` (with `none`
for the error case); Go `int` is 64-bit on the target platform, so the
`strconv` models retain the `int64` range check.
-/

namespace ManyColor

/-- The character class `[0-9a-f]` of both color regexes
(`'0' = 48`, `'9' = 57`, `'a' = 97`, `'f' = 102`). -/
def isLowerHexDigit (c : Char) : Bool :=
  (48 ≤ c.toNat && c.toNat ≤ 57) || (97 ≤ c.toNat && c.toNat ≤ 102)

/-- Hex digits accepted by Go `strconv.ParseInt` with base 16
(decimal digits, lowercase and uppercase letters). -/
def isParseIntHexDigit (c : Char) : Bool :=
  (48 ≤ c.toNat && c.toNat ≤ 57) || (97 ≤ c.toNat && c.toNat ≤ 102) ||
    (65 ≤ c.toNat && c.toNat ≤ 70)

/-- Numeric value of a hex digit as interpreted by `strconv.ParseInt`. -/
def hexDigitVal (c : Char) : Nat :=
  if c.toNat ≤ 57 then c.toNat - 48
  else if c.toNat ≤ 90 then c.toNat - 55
  else c.toNat - 87

/-- `math.MaxInt64`: the upper bound of Go `int` (bitSize 0 on a 64-bit
platform) used by `strconv.ParseInt` / `strconv.Atoi` range checking. -/
def int64Max : Nat := 9223372036854775807

/-- Model of Go `strconv.ParseInt(s, 16, 0)` on unsigned, unprefixed
strings (the only form `parseHex` feeds it: regex submatch groups of
lowercase hex digits, possibly doubled). Returns the value together with
a flag that is `true` when the returned error is nil; a malformed string
yields value 0, an out-of-range one clamps to `int64Max`, matching Go. -/
def parseInt16 (s : List Char) : Int × Bool :=
  if s.isEmpty then (0, false)
  else if s.all isParseIntHexDigit then
    let v : Nat := s.foldl (fun a c => 16 * a + hexDigitVal c) 0
    if v ≤ int64Max then ((v : Int), true) else ((int64Max : Int), false)
  else (0, false)

/-- Go conversion `uint8(v)` of an `int64`: the low 8 bits. -/
def uint8go (v : Int) : Nat := (v % 256).toNat

/-- The RGBA color value `color.RGBA{R, G, B, A}` stored in a `Hex`. -/
structure RGBA where
  R : Nat
  G : Nat
  B : Nat
  A : Nat
  deriving DecidableEq, Repr

/-- The Go struct `Hex`: an RGBA color plus the canonical hex string
(`Name` in variant 1, `hex` in variant 2) used as the filename stem. -/
structure Hex where
  color : RGBA
  Name : List Char
  deriving DecidableEq, Repr

/-- `cs.length = 6` and every char in `[0-9a-f]`: exactly the strings
matched by `colorRegex[0] = ^([0-9a-f][0-9a-f])([0-9a-f][0-9a-f])([0-9a-f][0-9a-f])$`. -/
def isHex6 (cs : List Char) : Bool :=
  cs.length == 6 && cs.all isLowerHexDigit

/-- `cs.length = 3` and every char in `[0-9a-f]`: exactly the strings
matched by `colorRegex[1] = ^([0-9a-f])([0-9a-f])([0-9a-f])$`. -/
def isHex3 (cs : List Char) : Bool :=
  cs.length == 3 && cs.all isLowerHexDigit

/-- The loop over `colorRegex` in `parseHex`: try the 6-digit pattern,
then the 3-digit pattern, returning the three capture groups of the
first regex that matches (`FindStringSubmatch` minus the full match). -/
def findColorSubmatch (cs : List Char) : Option (List Char × List Char × List Char) :=
  if isHex6 cs then some (cs.take 2, ((cs.drop 2).take 2, (cs.drop 4).take 2))
  else if isHex3 cs then some (cs.take 1, ((cs.drop 1).take 1, (cs.drop 2).take 1))
  else none

/-- The `if len(str) == 1 { str += str }` digit-doubling step applied to
each capture group. -/
def channelGroup (g : List Char) : List Char :=
  if g.length == 1 then g ++ g else g

/-- Go `parseHex`: match against the color regexes, double single-digit
groups, parse each group as base-16 (error discarded, as in the source),
narrow to `uint8`, and join the groups into the canonical name. -/
def parseHex (cs : List Char) : Option Hex :=
  match findColorSubmatch cs with
  | none => none
  | some (g1, g2, g3) =>
    let s1 := channelGroup g1
    let s2 := channelGroup g2
    let s3 := channelGroup g3
    some ⟨⟨uint8go (parseInt16 s1).1, uint8go (parseInt16 s2).1,
           uint8go (parseInt16 s3).1, 255⟩, s1 ++ s2 ++ s3⟩

/-- The character class `[1-9]` of the size regex. -/
def isDigit19 (c : Char) : Bool := 49 ≤ c.toNat && c.toNat ≤ 57

/-- The character class `[0-9]` of the size regex. -/
def isDigit09 (c : Char) : Bool := 48 ≤ c.toNat && c.toNat ≤ 57

/-- Matching `([1-9][0-9]*)x([1-9][0-9]*)` at the start of `cs`: returns
the two capture groups and the unconsumed suffix. Greedy matching is
exact here because `x` is not in `[0-9]`, so no backtracking can succeed
where the maximal-munch attempt fails. -/
def matchSizeAt (cs : List Char) : Option (List Char × List Char × List Char) :=
  match cs with
  | [] => none
  | c :: rest =>
    if isDigit19 c then
      match rest.dropWhile isDigit09 with
      | 'x' :: rest1 =>
        match rest1 with
        | [] => none
        | c2 :: rest2 =>
          if isDigit19 c2 then
            some (c :: rest.takeWhile isDigit09,
                  (c2 :: rest2.takeWhile isDigit09, rest2.dropWhile isDigit09))
          else none
      | _ => none
    else none

/-- Variant 2's `sizeRegex.FindStringSubmatch`: the pattern
`([1-9][0-9]*)x([1-9][0-9]*)` is unanchored, so the leftmost match
anywhere in the string is taken. -/
def findSizeSubmatch : List Char → Option (List Char × List Char)
  | [] => none
  | c :: rest =>
    match matchSizeAt (c :: rest) with
    | some (g1, g2, _) => some (g1, g2)
    | none => findSizeSubmatch rest

/-- Variant 1's `sizeRegex.FindStringSubmatch`: the pattern
`^([1-9][0-9]*)x([1-9][0-9]*)$` is anchored, so the match must start at
the beginning and consume the whole string. -/
def anchoredSizeSubmatch (cs : List Char) : Option (List Char × List Char) :=
  match matchSizeAt cs with
  | some (g1, g2, []) => some (g1, g2)
  | _ => none

/-- Model of Go `strconv.Atoi` on the digit-only strings produced by the
size regex groups (no sign, no leading whitespace); values above
`int64Max` produce a range error, as Go `int` is 64-bit here. -/
def atoi (s : List Char) : Option Nat :=
  if s.isEmpty then none
  else if s.all isDigit09 then
    let v : Nat := s.foldl (fun a c => 10 * a + (c.toNat - 48)) 0
    if v ≤ int64Max then some v else none
  else none

/-- Go struct `Size` (both fields positive whenever produced by the parser). -/
structure Size where
  Width : Nat
  Height : Nat
  deriving DecidableEq, Repr

/-- The `Atoi` tail shared by both variants' size parsing: convert the
two capture groups, propagating a conversion failure of either. -/
def sizeFromGroups (g1 g2 : List Char) : Option Size :=
  match atoi g1 with
  | none => none
  | some w =>
    match atoi g2 with
    | none => none
    | some h => some ⟨w, h⟩

/-- Variant 1's `parseSize`: anchored regex match, then `Atoi` on each group. -/
def parseSize (cs : List Char) : Option Size :=
  match anchoredSizeSubmatch cs with
  | none => none
  | some (g1, g2) => sizeFromGroups g1 g2

/-- Variant 2's inline size parsing in `main`: unanchored regex match,
then `Atoi` on each group (a failure of either step aborts the program;
modelled as `none`). -/
def parseSizeV2 (cs : List Char) : Option Size :=
  match findSizeSubmatch cs with
  | none => none
  | some (g1, g2) => sizeFromGroups g1 g2

/-- `strings.TrimLeft(line, "#")`: drop every leading `'#'`. -/
def stripHash (cs : List Char) : List Char :=
  cs.dropWhile (fun c => c == '#')

/-- The input-pattern `^#?[0-9a-f]{6}$`: an optional leading `#`
followed by exactly six lowercase hex digits. -/
def matchesOptHex6 : List Char → Bool
  | [] => isHex6 []
  | c :: rest => if c == '#' then isHex6 rest else isHex6 (c :: rest)

/-- The input-pattern `^#?[0-9a-f]{3}$`: an optional leading `#`
followed by exactly three lowercase hex digits. -/
def matchesOptHex3 : List Char → Bool
  | [] => isHex3 []
  | c :: rest => if c == '#' then isHex3 rest else isHex3 (c :: rest)

/-- Whether `generateImage` returns a non-nil error on the (already
`#`-stripped) line `hex`: either `parseHex` rejects it, or the file I/O
(`os.OpenFile` + `png.Encode`) on the canonical filename stem fails; the
latter is abstracted by the oracle `ioFail`. -/
def generateImageErr (ioFail : List Char → Bool) (hex : List Char) : Bool :=
  match parseHex hex with
  | none => true
  | some h => ioFail h.Name

/-- Variant 1's scanner loop over the input lines: strip `#`, run
`generateImage`, warn-and-skip on error, else increment `count`.
Returns the warned-about (stripped) lines, in order, with the final
`count`. -/
def runLines (ioFail : List Char → Bool) : List (List Char) → List (List Char) × Nat
  | [] => ([], 0)
  | line :: rest =>
    let hex := stripHash line
    let r := runLines ioFail rest
    if generateImageErr ioFail hex then (hex :: r.1, r.2) else (r.1, r.2 + 1)

/-- Observable outcome of one run of variant 1's `main` after the flags
and input source are accepted. -/
structure RunResult where
  warnings : List (List Char)
  count : Nat
  exitCode : Nat
  deriving DecidableEq, Repr

/-- Variant 1's `main` after setup: scan all lines, print the summary
with the final count, then run the deferred `Close(input)`, which calls
`os.Exit(1)` exactly when closing fails. -/
def runMain (ioFail : List Char → Bool) (closeFail : Bool)
    (lines : List (List Char)) : RunResult :=
  let r := runLines ioFail lines
  ⟨r.1, r.2, if closeFail then 1 else 0⟩

/-- Whether `generateImage` succeeds on a raw input line: `parseHex`
accepts the `#`-stripped text and the file I/O on the canonical name
succeeds. -/
def genOk (ioFail : List Char → Bool) (line : List Char) : Bool :=
  !(generateImageErr ioFail (stripHash line))

/-- Linux value of `os.O_WRONLY`. -/
def O_WRONLY : Nat := 1

/-- Linux value of `os.O_CREATE`. -/
def O_CREATE : Nat := 64

/-- Linux value of `os.O_TRUNC`. -/
def O_TRUNC : Nat := 512

/-- The flag argument of the `os.OpenFile` call in `generateImage`
(both variants): `os.O_WRONLY|os.O_CREATE`. -/
def generateImageOpenFlags : Nat := O_WRONLY ||| O_CREATE

/-- File contents after opening an existing file holding `old` with
`flags` and writing the byte stream `new` from offset zero (POSIX
open/write semantics): with `O_TRUNC` the old contents are discarded
first; without it, old bytes beyond the written range survive. -/
def fileAfterWrite (flags : Nat) (old new : List Nat) : List Nat :=
  if flags &&& O_TRUNC ≠ 0 then new else new ++ old.drop new.length

/-! ### Helper lemmas -/

theorem lowhex_parseIntHex (c : Char) (h : isLowerHexDigit c = true) :
    isParseIntHexDigit c = true := by
  simp only [isLowerHexDigit, Bool.or_eq_true, Bool.and_eq_true, decide_eq_true_eq] at h
  simp only [isParseIntHexDigit, Bool.or_eq_true, Bool.and_eq_true, decide_eq_true_eq]
  omega

theorem hexDigitVal_lt (c : Char) (h : isLowerHexDigit c = true) :
    hexDigitVal c < 16 := by
  simp only [isLowerHexDigit, Bool.or_eq_true, Bool.and_eq_true, decide_eq_true_eq] at h
  unfold hexDigitVal
  split <;> [omega; split <;> omega]

theorem lowhex_ne_hash (c : Char) (h : isLowerHexDigit c = true) :
    (c == '#') = false := by
  apply beq_eq_false_iff_ne.mpr
  rintro rfl
  simp [isLowerHexDigit] at h

theorem stripHash_all_lowhex (ds : List Char) (h : ds.all isLowerHexDigit = true) :
    stripHash ds = ds := by
  cases ds with
  | nil => rfl
  | cons c t =>
    simp only [List.all_cons, Bool.and_eq_true] at h
    simp [stripHash, List.dropWhile_cons, lowhex_ne_hash c h.1]

theorem parseInt16_pair (a b : Char) (ha : isLowerHexDigit a = true)
    (hb : isLowerHexDigit b = true) :
    parseInt16 [a, b] = (((16 * hexDigitVal a + hexDigitVal b : Nat) : Int), true) := by
  have ha' := lowhex_parseIntHex a ha
  have hb' := lowhex_parseIntHex b hb
  have hle : 16 * (16 * 0 + hexDigitVal a) + hexDigitVal b ≤ int64Max := by
    have := hexDigitVal_lt a ha
    have := hexDigitVal_lt b hb
    unfold int64Max
    omega
  simp only [parseInt16, List.isEmpty_cons, List.all_cons, List.all_nil, ha', hb',
    Bool.and_self, Bool.and_true, if_true, List.foldl, hle, if_false, Bool.false_eq_true]
  norm_num

theorem uint8go_ofNat (n : Nat) (h : n < 256) : uint8go ((n : Nat) : Int) = n := by
  unfold uint8go
  omega

theorem pairVal_lt (a b : Char) (ha : isLowerHexDigit a = true)
    (hb : isLowerHexDigit b = true) :
    16 * hexDigitVal a + hexDigitVal b < 256 := by
  have := hexDigitVal_lt a ha
  have := hexDigitVal_lt b hb
  omega

theorem parseHex_eval6 (c1 c2 c3 c4 c5 c6 : Char)
    (h1 : isLowerHexDigit c1 = true) (h2 : isLowerHexDigit c2 = true)
    (h3 : isLowerHexDigit c3 = true) (h4 : isLowerHexDigit c4 = true)
    (h5 : isLowerHexDigit c5 = true) (h6 : isLowerHexDigit c6 = true) :
    parseHex [c1, c2, c3, c4, c5, c6] =
      some ⟨⟨16 * hexDigitVal c1 + hexDigitVal c2,
             16 * hexDigitVal c3 + hexDigitVal c4,
             16 * hexDigitVal c5 + hexDigitVal c6, 255⟩,
            [c1, c2, c3, c4, c5, c6]⟩ := by
  have hx6 : isHex6 [c1, c2, c3, c4, c5, c6] = true := by
    simp [isHex6, h1, h2, h3, h4, h5, h6]
  have hg : findColorSubmatch [c1, c2, c3, c4, c5, c6] =
      some ([c1, c2], ([c3, c4], [c5, c6])) := by
    simp [findColorSubmatch, hx6]
  have hcg : ∀ a b : Char, channelGroup [a, b] = [a, b] := by
    intro a b; rfl
  simp only [parseHex, hg, hcg,
    parseInt16_pair c1 c2 h1 h2, parseInt16_pair c3 c4 h3 h4, parseInt16_pair c5 c6 h5 h6,
    uint8go_ofNat _ (pairVal_lt c1 c2 h1 h2), uint8go_ofNat _ (pairVal_lt c3 c4 h3 h4),
    uint8go_ofNat _ (pairVal_lt c5 c6 h5 h6), List.append_assoc, List.cons_append,
    List.nil_append]

theorem parseHex_eval3 (c1 c2 c3 : Char)
    (h1 : isLowerHexDigit c1 = true) (h2 : isLowerHexDigit c2 = true)
    (h3 : isLowerHexDigit c3 = true) :
    parseHex [c1, c2, c3] =
      some ⟨⟨16 * hexDigitVal c1 + hexDigitVal c1,
             16 * hexDigitVal c2 + hexDigitVal c2,
             16 * hexDigitVal c3 + hexDigitVal c3, 255⟩,
            [c1, c1, c2, c2, c3, c3]⟩ := by
  have hx6 : isHex6 [c1, c2, c3] = false := by
    simp [isHex6]
  have hx3 : isHex3 [c1, c2, c3] = true := by
    simp [isHex3, h1, h2, h3]
  have hg : findColorSubmatch [c1, c2, c3] = some ([c1], ([c2], [c3])) := by
    simp [findColorSubmatch, hx6, hx3]
  have hcg : ∀ a : Char, channelGroup [a] = [a, a] := by
    intro a; rfl
  simp only [parseHex, hg, hcg,
    parseInt16_pair c1 c1 h1 h1, parseInt16_pair c2 c2 h2 h2, parseInt16_pair c3 c3 h3 h3,
    uint8go_ofNat _ (pairVal_lt c1 c1 h1 h1), uint8go_ofNat _ (pairVal_lt c2 c2 h2 h2),
    uint8go_ofNat _ (pairVal_lt c3 c3 h3 h3), List.append_assoc, List.cons_append,
    List.nil_append]

theorem list_length_six {α : Type} (l : List α) (h : l.length = 6) :
    ∃ a b c d e f, l = [a, b, c, d, e, f] := by
  rcases l with _ | ⟨a, _ | ⟨b, _ | ⟨c, _ | ⟨d, _ | ⟨e, _ | ⟨f, _ | ⟨g, t⟩⟩⟩⟩⟩⟩⟩ <;>
      simp only [List.length_cons, List.length_nil] at h <;>
      first
      | omega
      | exact ⟨a, b, c, d, e, f, rfl⟩

theorem isHex6_parts (ds : List Char) (h : isHex6 ds = true) :
    ∃ c1 c2 c3 c4 c5 c6,
      ds = [c1, c2, c3, c4, c5, c6] ∧
      isLowerHexDigit c1 = true ∧ isLowerHexDigit c2 = true ∧ isLowerHexDigit c3 = true ∧
      isLowerHexDigit c4 = true ∧ isLowerHexDigit c5 = true ∧ isLowerHexDigit c6 = true := by
  simp only [isHex6, Bool.and_eq_true, beq_iff_eq, List.all_eq_true] at h
  obtain ⟨hlen, hall⟩ := h
  obtain ⟨c1, c2, c3, c4, c5, c6, rfl⟩ := list_length_six ds hlen
  refine ⟨c1, c2, c3, c4, c5, c6, rfl, ?_, ?_, ?_, ?_, ?_, ?_⟩ <;>
    apply hall <;> simp

theorem isHex3_parts (ds : List Char) (h : isHex3 ds = true) :
    ∃ c1 c2 c3,
      ds = [c1, c2, c3] ∧
      isLowerHexDigit c1 = true ∧ isLowerHexDigit c2 = true ∧ isLowerHexDigit c3 = true := by
  simp only [isHex3, Bool.and_eq_true, beq_iff_eq, List.all_eq_true] at h
  obtain ⟨hlen, hall⟩ := h
  obtain ⟨c1, c2, c3, rfl⟩ := List.length_eq_three.mp hlen
  refine ⟨c1, c2, c3, rfl, ?_, ?_, ?_⟩ <;> apply hall <;> simp

theorem findColorSubmatch_inv (cs g1 g2 g3 : List Char)
    (h : findColorSubmatch cs = some (g1, (g2, g3))) :
    (∃ c1 c2 c3 c4 c5 c6,
        isLowerHexDigit c1 = true ∧ isLowerHexDigit c2 = true ∧ isLowerHexDigit c3 = true ∧
        isLowerHexDigit c4 = true ∧ isLowerHexDigit c5 = true ∧ isLowerHexDigit c6 = true ∧
        cs = [c1, c2, c3, c4, c5, c6] ∧ g1 = [c1, c2] ∧ g2 = [c3, c4] ∧ g3 = [c5, c6]) ∨
    (∃ c1 c2 c3,
        isLowerHexDigit c1 = true ∧ isLowerHexDigit c2 = true ∧ isLowerHexDigit c3 = true ∧
        cs = [c1, c2, c3] ∧ g1 = [c1] ∧ g2 = [c2] ∧ g3 = [c3]) := by
  by_cases h6 : isHex6 cs = true
  · left
    obtain ⟨c1, c2, c3, c4, c5, c6, rfl, d1, d2, d3, d4, d5, d6⟩ := isHex6_parts cs h6
    simp only [findColorSubmatch, h6, if_true, List.take_succ_cons, List.take_zero,
      List.drop_succ_cons, List.drop_zero, Option.some.injEq, Prod.mk.injEq] at h
    exact ⟨c1, c2, c3, c4, c5, c6, d1, d2, d3, d4, d5, d6, rfl,
      h.1.symm, h.2.1.symm, h.2.2.symm⟩
  · by_cases h3 : isHex3 cs = true
    · right
      obtain ⟨c1, c2, c3, rfl, d1, d2, d3⟩ := isHex3_parts cs h3
      rw [Bool.not_eq_true] at h6
      simp only [findColorSubmatch, h6, Bool.false_eq_true, if_false, h3, if_true,
        List.take_succ_cons, List.take_zero, List.drop_succ_cons, List.drop_zero,
        Option.some.injEq, Prod.mk.injEq] at h
      exact ⟨c1, c2, c3, d1, d2, d3, rfl, h.1.symm, h.2.1.symm, h.2.2.symm⟩
    · rw [Bool.not_eq_true] at h6 h3
      simp [findColorSubmatch, h6, h3] at h

theorem parseHex_hex6_getD (ds : List Char) (h : isHex6 ds = true) :
    parseHex ds =
      some ⟨⟨16 * hexDigitVal (ds.getD 0 ' ') + hexDigitVal (ds.getD 1 ' '),
             16 * hexDigitVal (ds.getD 2 ' ') + hexDigitVal (ds.getD 3 ' '),
             16 * hexDigitVal (ds.getD 4 ' ') + hexDigitVal (ds.getD 5 ' '),
             255⟩, ds⟩ := by
  obtain ⟨c1, c2, c3, c4, c5, c6, rfl, d1, d2, d3, d4, d5, d6⟩ := isHex6_parts ds h
  rw [parseHex_eval6 c1 c2 c3 c4 c5 c6 d1 d2 d3 d4 d5 d6]
  rfl

theorem stripHash_isHex6 (cs : List Char) (h : matchesOptHex6 cs = true) :
    isHex6 (stripHash cs) = true := by
  rcases cs with _ | ⟨c, rest⟩
  · simp [matchesOptHex6, isHex6] at h
  · rw [show matchesOptHex6 (c :: rest) =
        (if c == '#' then isHex6 rest else isHex6 (c :: rest)) from rfl] at h
    by_cases hc : (c == '#') = true
    · rw [if_pos hc] at h
      have hall : rest.all isLowerHexDigit = true := by
        simp only [isHex6, Bool.and_eq_true] at h
        exact h.2
      have hc' : c = '#' := by simpa using hc
      subst hc'
      rw [show stripHash ('#' :: rest) = stripHash rest from rfl]
      rw [stripHash_all_lowhex rest hall]
      exact h
    · rw [if_neg (by simpa using hc)] at h
      have hall : (c :: rest).all isLowerHexDigit = true := by
        simp only [isHex6, Bool.and_eq_true] at h
        exact h.2
      rw [stripHash_all_lowhex (c :: rest) hall]
      exact h

theorem stripHash_isHex3 (cs : List Char) (h : matchesOptHex3 cs = true) :
    isHex3 (stripHash cs) = true := by
  rcases cs with _ | ⟨c, rest⟩
  · simp [matchesOptHex3, isHex3] at h
  · rw [show matchesOptHex3 (c :: rest) =
        (if c == '#' then isHex3 rest else isHex3 (c :: rest)) from rfl] at h
    by_cases hc : (c == '#') = true
    · rw [if_pos hc] at h
      have hall : rest.all isLowerHexDigit = true := by
        simp only [isHex3, Bool.and_eq_true] at h
        exact h.2
      have hc' : c = '#' := by simpa using hc
      subst hc'
      rw [show stripHash ('#' :: rest) = stripHash rest from rfl]
      rw [stripHash_all_lowhex rest hall]
      exact h
    · rw [if_neg (by simpa using hc)] at h
      have hall : (c :: rest).all isLowerHexDigit = true := by
        simp only [isHex3, Bool.and_eq_true] at h
        exact h.2
      rw [stripHash_all_lowhex (c :: rest) hall]
      exact h

/-! ### Claim theorems -/

/-- C1: for every input string matching `^#?[0-9a-f]{6}$`, after stripping
the leading `#` the hex parser succeeds; the red, green and blue channels
are the base-16 decoding of the first, second and third pair of digits,
the alpha is 255, and the canonical string (`Name`) equals the six
lowercase input digits. -/
theorem parseHex_sixDigit_exact (cs : List Char) (h : matchesOptHex6 cs = true) :
    parseHex (stripHash cs) =
      some ⟨⟨16 * hexDigitVal ((stripHash cs).getD 0 ' ') +
               hexDigitVal ((stripHash cs).getD 1 ' '),
             16 * hexDigitVal ((stripHash cs).getD 2 ' ') +
               hexDigitVal ((stripHash cs).getD 3 ' '),
             16 * hexDigitVal ((stripHash cs).getD 4 ' ') +
               hexDigitVal ((stripHash cs).getD 5 ' '),
             255⟩, stripHash cs⟩ :=
  parseHex_hex6_getD (stripHash cs) (stripHash_isHex6 cs h)

theorem parseHex_sixDigit_exact_witness :
    matchesOptHex6 ("#00ff1a".toList) = true ∧
    parseHex (stripHash ("#00ff1a".toList)) =
      some ⟨⟨0, 255, 26, 255⟩, "00ff1a".toList⟩ :=
  ⟨by decide, by rw [parseHex_sixDigit_exact ("#00ff1a".toList) (by decide)]; decide⟩

theorem parseHex_hex3_getD (ds : List Char) (h : isHex3 ds = true) :
    parseHex ds =
      some ⟨⟨16 * hexDigitVal (ds.getD 0 ' ') + hexDigitVal (ds.getD 0 ' '),
             16 * hexDigitVal (ds.getD 1 ' ') + hexDigitVal (ds.getD 1 ' '),
             16 * hexDigitVal (ds.getD 2 ' ') + hexDigitVal (ds.getD 2 ' '),
             255⟩,
            [ds.getD 0 ' ', ds.getD 0 ' ', ds.getD 1 ' ', ds.getD 1 ' ',
             ds.getD 2 ' ', ds.getD 2 ' ']⟩ := by
  obtain ⟨c1, c2, c3, rfl, d1, d2, d3⟩ := isHex3_parts ds h
  rw [parseHex_eval3 c1 c2 c3 d1 d2 d3]
  rfl

/-- C2: for every input string matching `^#?[0-9a-f]{3}$`, the hex parser
doubles each digit before decoding: the canonical string is
`d1d1d2d2d3d3` and each channel is the base-16 value of the doubled pair
(with alpha 255). -/
theorem parseHex_threeDigit_doubles (cs : List Char) (h : matchesOptHex3 cs = true) :
    parseHex (stripHash cs) =
      some ⟨⟨16 * hexDigitVal ((stripHash cs).getD 0 ' ') +
               hexDigitVal ((stripHash cs).getD 0 ' '),
             16 * hexDigitVal ((stripHash cs).getD 1 ' ') +
               hexDigitVal ((stripHash cs).getD 1 ' '),
             16 * hexDigitVal ((stripHash cs).getD 2 ' ') +
               hexDigitVal ((stripHash cs).getD 2 ' '),
             255⟩,
            [(stripHash cs).getD 0 ' ', (stripHash cs).getD 0 ' ',
             (stripHash cs).getD 1 ' ', (stripHash cs).getD 1 ' ',
             (stripHash cs).getD 2 ' ', (stripHash cs).getD 2 ' ']⟩ :=
  parseHex_hex3_getD (stripHash cs) (stripHash_isHex3 cs h)

theorem parseHex_threeDigit_doubles_witness :
    matchesOptHex3 ("abc".toList) = true ∧
    parseHex (stripHash ("abc".toList)) =
      some ⟨⟨170, 187, 204, 255⟩, "aabbcc".toList⟩ :=
  ⟨by decide, by rw [parseHex_threeDigit_doubles ("abc".toList) (by decide)]; decide⟩

theorem parseHex_some_shape (cs : List Char) (hx : Hex) (h : parseHex cs = some hx) :
    ∃ c1 c2 c3 c4 c5 c6,
      isLowerHexDigit c1 = true ∧ isLowerHexDigit c2 = true ∧ isLowerHexDigit c3 = true ∧
      isLowerHexDigit c4 = true ∧ isLowerHexDigit c5 = true ∧ isLowerHexDigit c6 = true ∧
      hx = ⟨⟨16 * hexDigitVal c1 + hexDigitVal c2,
             16 * hexDigitVal c3 + hexDigitVal c4,
             16 * hexDigitVal c5 + hexDigitVal c6, 255⟩,
            [c1, c2, c3, c4, c5, c6]⟩ := by
  cases hfc : findColorSubmatch cs with
  | none => simp [parseHex, hfc] at h
  | some g =>
    obtain ⟨g1, g2, g3⟩ := g
    rcases findColorSubmatch_inv cs g1 g2 g3 hfc with
      ⟨c1, c2, c3, c4, c5, c6, d1, d2, d3, d4, d5, d6, rfl, rfl, rfl, rfl⟩ |
      ⟨c1, c2, c3, d1, d2, d3, rfl, rfl, rfl, rfl⟩
    · rw [parseHex_eval6 c1 c2 c3 c4 c5 c6 d1 d2 d3 d4 d5 d6] at h
      exact ⟨c1, c2, c3, c4, c5, c6, d1, d2, d3, d4, d5, d6, (Option.some_inj.mp h).symm⟩
    · rw [parseHex_eval3 c1 c2 c3 d1 d2 d3] at h
      exact ⟨c1, c1, c2, c2, c3, c3, d1, d1, d2, d2, d3, d3, (Option.some_inj.mp h).symm⟩

/-- C3: whenever the hex parser succeeds, the canonical string (`Name`)
of the returned color is exactly 6 characters long and every character
is a lowercase hex digit. -/
theorem parseHex_name_canonical (cs : List Char) (hx : Hex) (h : parseHex cs = some hx) :
    hx.Name.length = 6 ∧ hx.Name.all isLowerHexDigit = true := by
  obtain ⟨c1, c2, c3, c4, c5, c6, d1, d2, d3, d4, d5, d6, rfl⟩ := parseHex_some_shape cs hx h
  exact ⟨rfl, by simp [d1, d2, d3, d4, d5, d6]⟩

theorem parseHex_name_canonical_witness :
    ("ff0000".toList).length = 6 ∧ ("ff0000".toList).all isLowerHexDigit = true :=
  parseHex_name_canonical ("f00".toList) ⟨⟨255, 0, 0, 255⟩, "ff0000".toList⟩ (by decide)

/-- C4: the hex parser is round-trip stable: if it succeeds on `cs` with
result `hx`, then parsing the canonical string `hx.Name` succeeds again
and returns the very same `Hex` (same channels, alpha and name). -/
theorem parseHex_roundtrip (cs : List Char) (hx : Hex) (h : parseHex cs = some hx) :
    parseHex hx.Name = some hx := by
  obtain ⟨c1, c2, c3, c4, c5, c6, d1, d2, d3, d4, d5, d6, rfl⟩ := parseHex_some_shape cs hx h
  exact parseHex_eval6 c1 c2 c3 c4 c5 c6 d1 d2 d3 d4 d5 d6

theorem parseHex_roundtrip_witness :
    parseHex ("aabbcc".toList) = some ⟨⟨170, 187, 204, 255⟩, "aabbcc".toList⟩ :=
  parseHex_roundtrip ("abc".toList) ⟨⟨170, 187, 204, 255⟩, "aabbcc".toList⟩ (by decide)

/-- C5: every string that matches neither the 6-digit nor the 3-digit
lowercase hex pattern (wrong length, uppercase letters, non-hex
characters, ...) is rejected by the hex parser: it returns the
validation error, not a color. -/
theorem parseHex_rejects (cs : List Char) (h6 : isHex6 cs = false) (h3 : isHex3 cs = false) :
    parseHex cs = none := by
  simp [parseHex, findColorSubmatch, h6, h3]

theorem parseHex_rejects_witness :
    parseHex ("AABBCC".toList) = none :=
  parseHex_rejects ("AABBCC".toList) (by decide) (by decide)

theorem channelGroup_safe (g : List Char) (h1 : g.all isLowerHexDigit = true)
    (h2 : g.length = 1 ∨ g.length = 2) :
    (parseInt16 (channelGroup g)).2 = true ∧
    0 ≤ (parseInt16 (channelGroup g)).1 ∧ (parseInt16 (channelGroup g)).1 ≤ 255 ∧
    ((uint8go (parseInt16 (channelGroup g)).1 : Nat) : Int) = (parseInt16 (channelGroup g)).1 := by
  rcases h2 with h2 | h2
  · obtain ⟨a, rfl⟩ := List.length_eq_one.mp h2
    have ha : isLowerHexDigit a = true := by simpa using h1
    rw [show channelGroup [a] = [a, a] from rfl, parseInt16_pair a a ha ha]
    have hb := pairVal_lt a a ha ha
    refine ⟨rfl, Int.natCast_nonneg _, ?_, ?_⟩
    · show ((16 * hexDigitVal a + hexDigitVal a : Nat) : Int) ≤ 255
      exact_mod_cast Nat.lt_succ_iff.mp hb
    · rw [uint8go_ofNat _ hb]
  · obtain ⟨a, b, rfl⟩ := List.length_eq_two.mp h2
    have ha : isLowerHexDigit a = true := by
      simp only [List.all_cons, Bool.and_eq_true] at h1
      exact h1.1
    have hb : isLowerHexDigit b = true := by
      simp only [List.all_cons, Bool.and_eq_true] at h1
      exact h1.2.1
    rw [show channelGroup [a, b] = [a, b] from rfl, parseInt16_pair a b ha hb]
    have hlt := pairVal_lt a b ha hb
    refine ⟨rfl, Int.natCast_nonneg _, ?_, ?_⟩
    · show ((16 * hexDigitVal a + hexDigitVal b : Nat) : Int) ≤ 255
      exact_mod_cast Nat.lt_succ_iff.mp hlt
    · rw [uint8go_ofNat _ hlt]

/-- C10: whenever one of the color regexes matched (so
`findColorSubmatch` produced the three capture groups), the error that
`parseHex` discards on each (possibly doubled) group's base-16
conversion is nil, the converted value lies in `[0, 255]`, and the
narrowing to the 8-bit channel loses nothing. -/
theorem parseInt_groups_safe (cs g1 g2 g3 : List Char)
    (h : findColorSubmatch cs = some (g1, (g2, g3))) :
    ((parseInt16 (channelGroup g1)).2 = true ∧
      0 ≤ (parseInt16 (channelGroup g1)).1 ∧ (parseInt16 (channelGroup g1)).1 ≤ 255 ∧
      ((uint8go (parseInt16 (channelGroup g1)).1 : Nat) : Int) = (parseInt16 (channelGroup g1)).1) ∧
    ((parseInt16 (channelGroup g2)).2 = true ∧
      0 ≤ (parseInt16 (channelGroup g2)).1 ∧ (parseInt16 (channelGroup g2)).1 ≤ 255 ∧
      ((uint8go (parseInt16 (channelGroup g2)).1 : Nat) : Int) = (parseInt16 (channelGroup g2)).1) ∧
    ((parseInt16 (channelGroup g3)).2 = true ∧
      0 ≤ (parseInt16 (channelGroup g3)).1 ∧ (parseInt16 (channelGroup g3)).1 ≤ 255 ∧
      ((uint8go (parseInt16 (channelGroup g3)).1 : Nat) : Int) = (parseInt16 (channelGroup g3)).1) := by
  rcases findColorSubmatch_inv cs g1 g2 g3 h with
    ⟨c1, c2, c3, c4, c5, c6, d1, d2, d3, d4, d5, d6, rfl, rfl, rfl, rfl⟩ |
    ⟨c1, c2, c3, d1, d2, d3, rfl, rfl, rfl, rfl⟩
  · exact ⟨channelGroup_safe _ (by simp [d1, d2]) (Or.inr rfl),
      channelGroup_safe _ (by simp [d3, d4]) (Or.inr rfl),
      channelGroup_safe _ (by simp [d5, d6]) (Or.inr rfl)⟩
  · exact ⟨channelGroup_safe _ (by simp [d1]) (Or.inl rfl),
      channelGroup_safe _ (by simp [d2]) (Or.inl rfl),
      channelGroup_safe _ (by simp [d3]) (Or.inl rfl)⟩

theorem parseInt_groups_safe_witness :
    ((parseInt16 (channelGroup ("1a".toList))).2 = true ∧
      0 ≤ (parseInt16 (channelGroup ("1a".toList))).1 ∧
      (parseInt16 (channelGroup ("1a".toList))).1 ≤ 255 ∧
      ((uint8go (parseInt16 (channelGroup ("1a".toList))).1 : Nat) : Int) =
        (parseInt16 (channelGroup ("1a".toList))).1) ∧
    ((parseInt16 (channelGroup ("2b".toList))).2 = true ∧
      0 ≤ (parseInt16 (channelGroup ("2b".toList))).1 ∧
      (parseInt16 (channelGroup ("2b".toList))).1 ≤ 255 ∧
      ((uint8go (parseInt16 (channelGroup ("2b".toList))).1 : Nat) : Int) =
        (parseInt16 (channelGroup ("2b".toList))).1) ∧
    ((parseInt16 (channelGroup ("3c".toList))).2 = true ∧
      0 ≤ (parseInt16 (channelGroup ("3c".toList))).1 ∧
      (parseInt16 (channelGroup ("3c".toList))).1 ≤ 255 ∧
      ((uint8go (parseInt16 (channelGroup ("3c".toList))).1 : Nat) : Int) =
        (parseInt16 (channelGroup ("3c".toList))).1) :=
  parseInt_groups_safe ("1a2b3c".toList) ("1a".toList) ("2b".toList) ("3c".toList) (by decide)

/-- C6: the size parser maps `"800x600"` to width 800 and height 600,
rejects `"0x5"` (a leading zero / zero value is not a `[1-9][0-9]*`
digit sequence) and rejects `"10x"` (missing height). -/
theorem parseSize_examples :
    parseSize ("800x600".toList) = some ⟨800, 600⟩ ∧
    parseSize ("0x5".toList) = none ∧
    parseSize ("10x".toList) = none := by
  refine ⟨?_, ?_, ?_⟩ <;> decide

/-- C7 fails on the code as stated: `generateImage` opens the output
file with `O_WRONLY|O_CREATE` but without `O_TRUNC`, so writing one byte
over a previously existing two-byte file leaves the old second byte in
place — the old content is not fully removed. -/
theorem generateImage_truncate_counterexample :
    ¬ (fileAfterWrite generateImageOpenFlags [7, 8] [9] = [9]) := by
  decide

/-- C7 (amended): `generateImage` opens the PNG file with
`O_WRONLY|O_CREATE` and no `O_TRUNC`: the file is created if missing and
the new bytes overwrite the old from offset zero, but trailing bytes of
a longer pre-existing file survive the write. -/
theorem generateImage_openFlags_overwrite :
    generateImageOpenFlags &&& O_TRUNC = 0 ∧
    ∀ old new : List Nat,
      fileAfterWrite generateImageOpenFlags old new = new ++ old.drop new.length := by
  refine ⟨by decide, ?_⟩
  intro old new
  rw [fileAfterWrite, if_neg (by decide)]

theorem runLines_spec (ioFail : List Char → Bool) (lines : List (List Char)) :
    (runLines ioFail lines).2 = lines.countP (genOk ioFail) ∧
    (runLines ioFail lines).1 =
      (lines.filter (fun l => !(genOk ioFail l))).map stripHash := by
  induction lines with
  | nil => exact ⟨rfl, rfl⟩
  | cons line rest ih =>
    obtain ⟨ih1, ih2⟩ := ih
    by_cases hg : generateImageErr ioFail (stripHash line) = true
    · have hok : genOk ioFail line = false := by simp [genOk, hg]
      simp [runLines, hg, List.countP_cons, List.filter_cons, hok, ih1, ih2]
    · rw [Bool.not_eq_true] at hg
      have hok : genOk ioFail line = true := by simp [genOk, hg]
      simp [runLines, hg, List.countP_cons, List.filter_cons, hok, ih1, ih2]

/-- C8: in variant 1's main loop, every line on which `generateImage`
fails (in particular every line failing hex validation) is warned about
and skipped while processing continues; the final summary count equals
exactly the number of lines for which an image was generated, and the
process exits with code 0 however many lines were skipped (the input
stream's close succeeding, the only other exit path). -/
theorem mainRun_summary (ioFail : List Char → Bool) (lines : List (List Char)) :
    (runMain ioFail false lines).count = lines.countP (genOk ioFail) ∧
    (runMain ioFail false lines).warnings =
      (lines.filter (fun l => !(genOk ioFail l))).map stripHash ∧
    (runMain ioFail false lines).exitCode = 0 := by
  obtain ⟨h1, h2⟩ := runLines_spec ioFail lines
  exact ⟨h1, h2, rfl⟩

theorem anchoredSizeSubmatch_inv (cs g1 g2 : List Char)
    (h : anchoredSizeSubmatch cs = some (g1, g2)) :
    matchSizeAt cs = some (g1, (g2, [])) := by
  unfold anchoredSizeSubmatch at h
  cases hmm : matchSizeAt cs with
  | none =>
    rw [hmm] at h
    exact Option.noConfusion h
  | some t =>
    obtain ⟨t1, t2, t3⟩ := t
    rw [hmm] at h
    cases t3 with
    | nil =>
      have h' : (t1, t2) = (g1, g2) := by simpa using h
      obtain ⟨rfl, rfl⟩ : t1 = g1 ∧ t2 = g2 := by simpa [Prod.ext_iff] using h'
      rfl
    | cons a t => exact Option.noConfusion h

/-- C9: variant 1's size parser is anchored, variant 2's is not: every
string variant 1 accepts, variant 2 accepts with the same width and
height, while `"a800x600b"` — which only contains `800x600` as a proper
substring — is rejected by variant 1 but accepted by variant 2. -/
theorem parseSize_anchored_vs_unanchored :
    (∀ cs s, parseSize cs = some s → parseSizeV2 cs = some s) ∧
    parseSize ("a800x600b".toList) = none ∧
    parseSizeV2 ("a800x600b".toList) = some ⟨800, 600⟩ := by
  refine ⟨?_, by decide, by decide⟩
  intro cs s h
  cases ham : anchoredSizeSubmatch cs with
  | none =>
    rw [parseSize, ham] at h
    exact Option.noConfusion h
  | some g =>
    obtain ⟨g1, g2⟩ := g
    rw [parseSize, ham] at h
    have hm := anchoredSizeSubmatch_inv cs g1 g2 ham
    cases cs with
    | nil => simp [matchSizeAt] at hm
    | cons c rest =>
      have hfind : findSizeSubmatch (c :: rest) = some (g1, g2) := by
        rw [findSizeSubmatch, hm]
      rw [parseSizeV2, hfind]
      exact h

theorem parseSize_anchored_vs_unanchored_witness :
    parseSizeV2 ("20x30".toList) = some ⟨20, 30⟩ :=
  parseSize_anchored_vs_unanchored.1 ("20x30".toList) ⟨20, 30⟩ (by decide)

end ManyColor
